import Mathlib

/-!
Shallow embedding of `review.py` (AI Code Review for GitHub PRs, v1.1.1).

The script is sequential glue: parse CLI arguments, read `GITHUB_TOKEN`,
fetch a pull request, build a content string, call an LLM gateway, and
print or post results.  We embed:

* `get_file_line_from_diff` (the Diff Line Locator) as a pure function on
  strings, with Python's `str.splitlines` modelled for `\n`-terminated
  lines, `str.startswith` as character-list prefix, and the regex
  `@@ -(\d+),(\d+) \+(\d+),(\d+) @@` (anchored at the start only, as
  `re.match` is) as an explicit matcher with `\d` read as ASCII digits.
* the orchestrator (lines 61-120 of `review.py`) as a function from the
  parsed arguments, a pull-request snapshot and an environment (the two
  external gateways) to the list of observable events it performs, in
  order: model calls, review-comment creation attempts, and prints.
  The GitHub and LLM gateways are opaque collaborators, modelled as
  function fields of `Env`; comment creation may raise, modelled by an
  `Option String` result (`some msg` = the exception's message).
* the `GITHUB_TOKEN` check (lines 30-32) as `runScript`, which returns
  `Except.error` (the uncaught `ValueError`, a non-zero exit) before any
  event when the variable is absent or empty.
-/

/-- Helper for `splitlines`: walk the characters with the current line
accumulated in reverse; every `\n` terminates a line, and a non-empty
remainder at the end contributes a final line. -/
def splitlinesAux : List Char → List Char → List String
  | [], acc => if acc.isEmpty then [] else [String.mk acc.reverse]
  | c :: cs, acc =>
    if c = '\n' then String.mk acc.reverse :: splitlinesAux cs []
    else splitlinesAux cs (c :: acc)

/-- Python `str.splitlines()` for text whose line terminator is `\n`:
split on newlines, without a trailing empty line after a final newline
(so `"a\nb\n"` and `"a\nb"` both give `["a", "b"]`, and `""` gives `[]`). -/
def splitlines (s : String) : List String :=
  splitlinesAux s.data []

/-- Python `s.startswith(pre)`. -/
def startswith (s pre : String) : Bool :=
  pre.data.isPrefixOf s.data

/-- Python `s.lower()` (ASCII-faithful). -/
def lower (s : String) : String :=
  String.mk (s.data.map Char.toLower)

/-- Python `sub in s`: substring membership. -/
def pyIn (sub s : String) : Bool :=
  s.data.tails.any (fun t => sub.data.isPrefixOf t)

/-- Match a literal character sequence at the front, returning the rest. -/
def matchLit : List Char → List Char → Option (List Char)
  | [], cs => some cs
  | _ :: _, [] => none
  | p :: ps, c :: cs => if p = c then matchLit ps cs else none

/-- Numeric value of a digit string, as Python `int` on the captured group. -/
def readNat (ds : List Char) : Nat :=
  ds.foldl (fun a c => 10 * a + (c.toNat - 48)) 0

/-- Match `\d+` greedily at the front (ASCII digits), returning the value
and the rest.  In the hunk-header regex every `\d+` is followed by a
non-digit literal, so greedy matching agrees with backtracking. -/
def matchDigits (cs : List Char) : Option (Nat × List Char) :=
  let ds := cs.takeWhile Char.isDigit
  if ds.isEmpty then none else some (readNat ds, cs.drop ds.length)

/-- Python `re.match(r"@@ -(\d+),(\d+) \+(\d+),(\d+) @@", line)`:
anchored at the start of `line` only (text may follow the final `@@`),
returning the four captured numbers. -/
def hunkHeaderMatch (line : String) : Option (Nat × Nat × Nat × Nat) := do
  let r0 ← matchLit "@@ -".data line.data
  let (a, r1) ← matchDigits r0
  let r2 ← matchLit ",".data r1
  let (b, r3) ← matchDigits r2
  let r4 ← matchLit " +".data r3
  let (c, r5) ← matchDigits r4
  let r6 ← matchLit ",".data r5
  let (d, r7) ← matchDigits r6
  let _ ← matchLit " @@".data r7
  pure (a, b, c, d)

/-- The test on a scanned diff line inside the inner loop:
`diff_line.startswith("+") and not diff_line.startswith("+++")`. -/
def isAddedLine (l : String) : Bool :=
  startswith l "+" && !startswith l "+++"

/-- The inner loop `for j, diff_line in enumerate(lines[i+1:], start=1)`:
return `new_start + j - 1` at the first added line, else fall through. -/
def scanAdded (new_start : Nat) : List String → Nat → Option Nat
  | [], _ => none
  | l :: rest, j =>
    if isAddedLine l then some (new_start + j - 1)
    else scanAdded new_start rest (j + 1)

/-- The outer loop `for i, line in enumerate(lines)`: at each line that
starts with `@@` and matches the hunk-header regex, run the inner scan
over all following lines; if it returns, that is the result, otherwise
continue with the next line; `1` when the loop falls through. -/
def scanLines : List String → Nat
  | [] => 1
  | line :: rest =>
    if startswith line "@@" then
      match hunkHeaderMatch line with
      | some (_, _, c, _) =>
        match scanAdded c rest 1 with
        | some n => n
        | none => scanLines rest
      | none => scanLines rest
    else scanLines rest

/-- `get_file_line_from_diff(diff)` from `review.py` lines 49-59. -/
def get_file_line_from_diff (diff : String) : Nat :=
  scanLines (splitlines diff)

/-- The `--mode` choices of the argument parser. -/
inductive Mode where
  | general
  | issues
  | comments
deriving DecidableEq

/-- The parsed command-line arguments relevant to the orchestrator
(`--llm`, `--debug` and `--deep` only select and configure the opaque
LLM gateway, so they are absorbed into `Env.llm`). -/
structure Args where
  mode : Mode
  full_context : Bool

/-- One changed file of the pull request: filename and optional
unified-diff patch (`none` for files without patch text). -/
structure PRFile where
  filename : String
  patch : Option String
deriving DecidableEq

/-- The pull-request snapshot read from the Repository Gateway: title and
body may be `None`, `state` is e.g. `"open"` or `"closed"`. -/
structure PullRequest where
  title : Option String
  body : Option String
  state : String
  files : List PRFile

/-- The two external gateways, as opaque functions: `contents f` is the
decoded content of file `f` at the head commit, `llm` is
`generate_review(content, mode)`, and `createResult body path line` is
`none` when `pr.create_review_comment` succeeds and `some msg` when it
raises an exception with message `msg`. -/
structure Env where
  contents : String → String
  llm : String → Mode → String
  createResult : String → String → Nat → Option String

/-- Observable actions of one run, in program order: a
`generate_review` call, a `create_review_comment` call (the attempt,
whether or not it raises), or a line printed to standard output. -/
inductive Event where
  | genReview (content : String) (mode : Mode)
  | commentAttempt (body path : String) (line : Nat) (side : String)
  | printed (s : String)
deriving DecidableEq

/-- Python `x or default` for an optional string: the default replaces
both `None` and the empty (falsy) string. -/
def orDefault : Option String → String → String
  | none, d => d
  | some s, d => if s = "" then d else s

/-- Python truthiness of an optional string (`if file.patch:`). -/
def truthy : Option String → Bool
  | none => false
  | some s => !(s == "")

/-- `pr_title = pr.title or "No title provided"` (line 62). -/
def pr_title (pr : PullRequest) : String :=
  orDefault pr.title "No title provided"

/-- `pr_description = pr.body or "No description provided"` (line 63). -/
def pr_description (pr : PullRequest) : String :=
  orDefault pr.body "No description provided"

/-- `base_content` (line 64). -/
def base_content (pr : PullRequest) : String :=
  "PR Title: " ++ pr_title pr ++ "\nPR Description:\n" ++ pr_description pr ++ "\n\n"

/-- `diff_content` (lines 67-75): with `--full-context`, filename, full
file content and diff per file joined by blank lines; otherwise the
patches joined by newlines; either way each entry ends with a line of
sixteen dashes and files with falsy patches are skipped. -/
def diff_content (args : Args) (pr : PullRequest) (env : Env) : String :=
  if args.full_context then
    String.intercalate "\n\n"
      ((pr.files.filter (fun f => truthy f.patch)).map
        (fun f => "File: " ++ f.filename ++ "\n" ++ env.contents f.filename
          ++ "\n\nDiff:\n" ++ f.patch.getD "" ++ "\n" ++ "----------------"))
  else
    String.intercalate "\n"
      ((pr.files.filter (fun f => truthy f.patch)).map
        (fun f => f.patch.getD "" ++ "\n" ++ "----------------"))

/-- `content` (lines 78-82): the `if`/`elif` appends
`"Diffs:\n" + diff_content` in every one of the three modes. -/
def content (args : Args) (pr : PullRequest) (env : Env) : String :=
  match args.mode with
  | Mode.general => base_content pr ++ "Diffs:\n" ++ diff_content args pr env
  | Mode.issues => base_content pr ++ "Diffs:\n" ++ diff_content args pr env
  | Mode.comments => base_content pr ++ "Diffs:\n" ++ diff_content args pr env

/-- `review_text = llm.generate_review(content, args.mode)` (line 85). -/
def review_text (args : Args) (pr : PullRequest) (env : Env) : String :=
  env.llm (content args pr env) args.mode

/-- The per-file `chunk` (lines 100-102): with `--full-context` the
filename, file content and diff, otherwise just the diff. -/
def chunk (args : Args) (env : Env) (f : PRFile) : String :=
  if args.full_context then
    "File: " ++ f.filename ++ "\n" ++ env.contents f.filename
      ++ "\n\nDiff:\n" ++ f.patch.getD ""
  else f.patch.getD ""

/-- `file_review = llm.generate_review(chunk, args.mode)` (line 103). -/
def file_review (args : Args) (env : Env) (f : PRFile) : String :=
  env.llm (chunk args env f) args.mode

/-- The body of the per-file loop in comments mode (lines 98-118): skip
files with falsy patches; otherwise call the model on the chunk, and if
the review is non-empty and its lowercasing does not contain
`"no feedback"`, attempt the review-comment creation; on success print
the posted-comment line, on exception print the error line (the
`try`/`except` of lines 108-118). -/
def processFile (args : Args) (env : Env) (f : PRFile) : List Event :=
  if truthy f.patch then
    let diff := f.patch.getD ""
    let fr := file_review args env f
    Event.genReview (chunk args env f) args.mode ::
      (if !(fr == "") && !(pyIn "no feedback" (lower fr)) then
        let line_num := get_file_line_from_diff diff
        let comment := "AI Issue: " ++ fr
        Event.commentAttempt comment f.filename line_num "RIGHT" ::
          (match env.createResult comment f.filename line_num with
          | none =>
            [Event.printed ("Posted comment on " ++ f.filename ++ " at line "
              ++ toString line_num ++ ": " ++ comment)]
          | some e =>
            [Event.printed ("Error posting comment on " ++ f.filename ++ ": " ++ e)])
      else [])
  else []

/-- The orchestrator after the token check and gateway setup
(lines 61-120): one PR-level model call, then the mode branch; in
comments mode the per-file loop runs only when the PR state is
`"open"`, otherwise the closed-PR notice is printed. -/
def runMain (args : Args) (pr : PullRequest) (env : Env) : List Event :=
  Event.genReview (content args pr env) args.mode ::
    (match args.mode with
    | Mode.general =>
      [Event.printed ("General PR Review:\n" ++ review_text args pr env)]
    | Mode.issues =>
      [Event.printed ("Code Issues:\n" ++ review_text args pr env)]
    | Mode.comments =>
      Event.printed ("Code Issues:\n" ++ review_text args pr env) ::
        (if pr.state = "open" then
          pr.files.flatMap (processFile args env)
        else
          [Event.printed "Comments mode: PR is closed, no comments posted."]))

/-- The whole script (lines 30-120): `os.getenv("GITHUB_TOKEN")` is
checked first, and a missing or empty token raises
`ValueError("GITHUB_TOKEN environment variable is required")`, which is
uncaught — the process exits non-zero before any gateway is constructed
and before any call of `runMain`'s events happens. -/
def runScript (github_token : Option String) (args : Args) (pr : PullRequest)
    (env : Env) : Except String (List Event) :=
  if truthy github_token then Except.ok (runMain args pr env)
  else Except.error "GITHUB_TOKEN environment variable is required"

/-- Sample arguments for concrete runs: comments mode, no full context. -/
def sampleArgs : Args :=
  { mode := Mode.comments, full_context := false }

/-- A sample changed file whose whole patch is one added line. -/
def sampleFile : PRFile :=
  { filename := "a.py", patch := some "+p" }

/-- A second sample changed file. -/
def sampleFile2 : PRFile :=
  { filename := "b.py", patch := some "+q" }

/-- A sample open pull request with two changed files. -/
def samplePrOpen : PullRequest :=
  { title := some "T", body := some "B", state := "open",
    files := [sampleFile, sampleFile2] }

/-- A sample closed pull request. -/
def samplePrClosed : PullRequest :=
  { title := some "T", body := some "B", state := "closed",
    files := [sampleFile] }

/-- A sample environment whose model always answers `"r"` and whose
comment creation succeeds. -/
def sampleEnv : Env :=
  { contents := fun _ => "", llm := fun _ _ => "r",
    createResult := fun _ _ _ => none }

/-- An environment whose comment creation always raises an exception
with message `"boom"`. -/
def failEnv : Env :=
  { contents := fun _ => "", llm := fun _ _ => "r",
    createResult := fun _ _ _ => some "boom" }

/-- An environment whose model answers with a mixed-case `No FEEDBACK`. -/
def noFeedbackEnv : Env :=
  { contents := fun _ => "", llm := fun _ _ => "Looks fine: No FEEDBACK needed",
    createResult := fun _ _ _ => none }

theorem matchLit_eq_append : ∀ {p cs r : List Char}, matchLit p cs = some r → cs = p ++ r := by
  intro p
  induction p with
  | nil => intro cs r h; simpa [matchLit] using (by simpa [matchLit] using h : cs = r) ▸ rfl
  | cons a as ih =>
    intro cs r h
    cases cs with
    | nil => simp [matchLit] at h
    | cons c cs' =>
      by_cases hac : a = c
      · subst hac
        simp only [matchLit, if_pos rfl] at h
        simpa using ih h
      · simp [matchLit, hac] at h

theorem hunkHeaderMatch_data {h : String} {x : Nat × Nat × Nat × Nat}
    (hm : hunkHeaderMatch h = some x) :
    ∃ t, h.data = '@' :: '@' :: ' ' :: '-' :: t := by
  cases e : matchLit "@@ -".data h.data with
  | none => simp [hunkHeaderMatch, e] at hm
  | some r0 => exact ⟨r0, matchLit_eq_append e⟩

theorem startswith_of_match {h : String} {x : Nat × Nat × Nat × Nat}
    (hm : hunkHeaderMatch h = some x) : startswith h "@@" = true := by
  obtain ⟨t, ht⟩ := hunkHeaderMatch_data hm
  simp [startswith, ht, List.isPrefixOf]

theorem not_added_of_match {h : String} {x : Nat × Nat × Nat × Nat}
    (hm : hunkHeaderMatch h = some x) : isAddedLine h = false := by
  obtain ⟨t, ht⟩ := hunkHeaderMatch_data hm
  simp [isAddedLine, startswith, ht, List.isPrefixOf]

theorem scanAdded_none {ls : List String} (h : ∀ l ∈ ls, isAddedLine l = false) :
    ∀ c j, scanAdded c ls j = none := by
  induction ls with
  | nil => intro c j; rfl
  | cons l rest ih =>
    intro c j
    have hl : isAddedLine l = false := h l (List.mem_cons_self _ _)
    simp only [scanAdded, hl, Bool.false_eq_true, if_false]
    exact ih (fun x hx => h x (List.mem_cons_of_mem _ hx)) c (j + 1)

theorem scanAdded_first {pre : List String} {q : String}
    (hpre : ∀ l ∈ pre, isAddedLine l = false) (hq : isAddedLine q = true) :
    ∀ (c j : Nat) (rest : List String),
      scanAdded c (pre ++ q :: rest) j = some (c + (j + pre.length) - 1) := by
  induction pre with
  | nil => intro c j rest; simp [scanAdded, hq]
  | cons l pre ih =>
    intro c j rest
    have hl : isAddedLine l = false := hpre l (List.mem_cons_self _ _)
    simp only [List.cons_append, scanAdded, hl, Bool.false_eq_true, if_false,
      List.append_eq]
    rw [ih (fun x hx => hpre x (List.mem_cons_of_mem _ hx)) c (j + 1) rest]
    simp only [List.length_cons]
    congr 1
    omega

theorem scanLines_skip {pre : List String}
    (h : ∀ l ∈ pre, hunkHeaderMatch l = none) :
    ∀ suf, scanLines (pre ++ suf) = scanLines suf := by
  induction pre with
  | nil => intro suf; rfl
  | cons l pre ih =>
    intro suf
    have hl : hunkHeaderMatch l = none := h l (List.mem_cons_self _ _)
    simp only [List.cons_append, scanLines, hl, ite_self]
    exact ih (fun x hx => h x (List.mem_cons_of_mem _ hx)) suf

theorem scanLines_no_match {ls : List String}
    (h : ∀ l ∈ ls, hunkHeaderMatch l = none) : scanLines ls = 1 := by
  have := scanLines_skip h []
  simpa using this

theorem scanLines_no_added {ls : List String}
    (h : ∀ l ∈ ls, isAddedLine l = false) : scanLines ls = 1 := by
  induction ls with
  | nil => rfl
  | cons l rest ih =>
    have hrest : ∀ x ∈ rest, isAddedLine x = false :=
      fun x hx => h x (List.mem_cons_of_mem _ hx)
    cases e : hunkHeaderMatch l with
    | none => simp only [scanLines, e, ite_self]; exact ih hrest
    | some x =>
      obtain ⟨a, b, c, d⟩ := x
      have hsw := startswith_of_match e
      simp only [scanLines, hsw, if_true, e, scanAdded_none hrest c 1]
      exact ih hrest

theorem scanLines_no_added_after_match (ls : List String)
    (h : ∀ i j : Fin ls.length, i < j →
      (hunkHeaderMatch (ls.get i)).isSome = true → isAddedLine (ls.get j) = false) :
    scanLines ls = 1 := by
  induction ls with
  | nil => rfl
  | cons l rest ih =>
    cases e : hunkHeaderMatch l with
    | none =>
      simp only [scanLines, e, ite_self]
      apply ih
      intro i j hij hmi
      exact h i.succ j.succ (Nat.succ_lt_succ hij) hmi
    | some x =>
      obtain ⟨a, b, c, d⟩ := x
      have hsw := startswith_of_match e
      have hrest : ∀ l' ∈ rest, isAddedLine l' = false := by
        intro l' hl'
        obtain ⟨j, hj⟩ := List.mem_iff_get.mp hl'
        have h0 : (hunkHeaderMatch ((l :: rest).get ⟨0, Nat.succ_pos _⟩)).isSome = true := by
          simp only [List.get]
          simp [e]
        have := h ⟨0, Nat.succ_pos _⟩ j.succ (Nat.succ_pos _) h0
        rw [← hj]
        exact this
      simp only [scanLines, hsw, if_true, e, scanAdded_none hrest c 1]
      exact scanLines_no_added hrest

/-- Claim C1: for every patch in which some line matches the exact
hunk-header form `@@ -a,b +c,d @@` and, after the first such matching
line, some later line starts with `+` but not `+++`,
`get_file_line_from_diff` returns `c + j - 1`, where `c` is the new-file
start captured from that first matching header and `j` is the 1-based
offset of the first such added line within the scan after that header
(here `j = pre2.length + 1`). -/
theorem get_file_line_from_diff_first_added (diff : String)
    (pre pre2 rest : List String) (hdr q : String) (a b c d : Nat)
    (hsplit : splitlines diff = pre ++ hdr :: (pre2 ++ q :: rest))
    (hfirst : ∀ l ∈ pre, hunkHeaderMatch l = none)
    (hmatch : hunkHeaderMatch hdr = some (a, b, c, d))
    (hpre2 : ∀ l ∈ pre2, isAddedLine l = false)
    (hq : isAddedLine q = true) :
    get_file_line_from_diff diff = c + (pre2.length + 1) - 1 := by
  unfold get_file_line_from_diff
  rw [hsplit, scanLines_skip hfirst]
  have hsw := startswith_of_match hmatch
  simp only [scanLines, hsw, if_true, hmatch, scanAdded_first hpre2 hq c 1]
  congr 1
  omega

/-- Claim C1, witness: the spec's own example — first hunk header
`@@ -10,5 +20,6 @@`, one context line, then the added line `+foo` —
yields line 21. -/
theorem get_file_line_from_diff_first_added_witness :
    get_file_line_from_diff "@@ -10,5 +20,6 @@\n ctx\n+foo" = 21 := by
  have := get_file_line_from_diff_first_added "@@ -10,5 +20,6 @@\n ctx\n+foo"
    [] [" ctx"] [] "@@ -10,5 +20,6 @@" "+foo" 10 5 20 6
    (by decide) (by decide) (by decide) (by decide) (by decide)
  simpa using this

/-- Claim C2, counterexample: a patch whose first hunk (the lines between
the first hunk header and the second) has no added line, but whose second
hunk does.  The inner scan of `get_file_line_from_diff` runs over all
lines after the first matching header, so it picks up the later hunk's
`+added` (scan offset 3) and returns `1 + 3 - 1 = 3`, not 1 as the claim
states. -/
theorem get_file_line_from_diff_later_hunk_counted :
    splitlines "@@ -1,1 +1,1 @@\n ctx\n@@ -5,2 +5,2 @@\n+added" =
      ["@@ -1,1 +1,1 @@", " ctx", "@@ -5,2 +5,2 @@", "+added"]
    ∧ hunkHeaderMatch "@@ -1,1 +1,1 @@" = some (1, 1, 1, 1)
    ∧ isAddedLine " ctx" = false
    ∧ hunkHeaderMatch "@@ -5,2 +5,2 @@" = some (5, 2, 5, 2)
    ∧ get_file_line_from_diff "@@ -1,1 +1,1 @@\n ctx\n@@ -5,2 +5,2 @@\n+added" = 3
    ∧ (3 : Nat) ≠ 1 :=
  ⟨by decide, by decide, by decide, by decide, by decide, by decide⟩

/-- Claim C2 as amended: for every patch in which no line starting with
`+` (and not `+++`) occurs anywhere after the first hunk header matching
the exact form — neither in the first hunk nor in any later hunk —
`get_file_line_from_diff` returns 1. -/
theorem get_file_line_from_diff_no_added_after_header (diff : String)
    (pre suf : List String) (hdr : String) (x : Nat × Nat × Nat × Nat)
    (hsplit : splitlines diff = pre ++ hdr :: suf)
    (hfirst : ∀ l ∈ pre, hunkHeaderMatch l = none)
    (hmatch : hunkHeaderMatch hdr = some x)
    (hsuf : ∀ l ∈ suf, isAddedLine l = false) :
    get_file_line_from_diff diff = 1 := by
  unfold get_file_line_from_diff
  rw [hsplit, scanLines_skip hfirst]
  obtain ⟨a, b, c, d⟩ := x
  have hsw := startswith_of_match hmatch
  simp only [scanLines, hsw, if_true, hmatch, scanAdded_none hsuf c 1]
  exact scanLines_no_added hsuf

/-- Claim C2 as amended, witness: a two-hunk patch with only context and
removed lines after the first header yields 1. -/
theorem get_file_line_from_diff_no_added_after_header_witness :
    get_file_line_from_diff "@@ -4,2 +7,1 @@\n old\n-gone\n@@ -9,1 +12,1 @@\n more" = 1 :=
  get_file_line_from_diff_no_added_after_header _
    [] [" old", "-gone", "@@ -9,1 +12,1 @@", " more"] "@@ -4,2 +7,1 @@" (4, 2, 7, 1)
    (by decide) (by decide) (by decide) (by decide)

/-- Claim C4: `get_file_line_from_diff` returns the default 1 both when
no line of the patch matches the exact hunk-header form, and when no
qualifying added line (starting with `+` but not `+++`) occurs after any
matching header. -/
theorem get_file_line_from_diff_default_one :
    (∀ diff : String, (∀ l ∈ splitlines diff, hunkHeaderMatch l = none) →
      get_file_line_from_diff diff = 1)
    ∧ (∀ diff : String,
        (∀ i j : Fin (splitlines diff).length, i < j →
          (hunkHeaderMatch ((splitlines diff).get i)).isSome = true →
          isAddedLine ((splitlines diff).get j) = false) →
        get_file_line_from_diff diff = 1) := by
  constructor
  · intro diff h
    exact scanLines_no_match h
  · intro diff h
    exact scanLines_no_added_after_match _ h

/-- Claim C4, witness: a patch with no `@@` header at all, and a patch
with a matching header but no added line after it, both yield 1. -/
theorem get_file_line_from_diff_default_one_witness :
    get_file_line_from_diff "hello\nworld" = 1
    ∧ get_file_line_from_diff "@@ -1,2 +3,4 @@\n ctx\n-removed" = 1 :=
  ⟨get_file_line_from_diff_default_one.1 "hello\nworld" (by decide),
   get_file_line_from_diff_default_one.2 "@@ -1,2 +3,4 @@\n ctx\n-removed" (by decide)⟩

/-- Claim C9: a line starting with `@@` that does not match the exact
four-number form (for example `@@ -3 +3 @@`, with the counts omitted)
captures no start line — the outer scan continues past it unchanged —
and if no `@@` line of the patch matches the exact form the function
returns 1. -/
theorem malformed_header_skipped :
    hunkHeaderMatch "@@ -3 +3 @@" = none
    ∧ (∀ (bad : String) (rest : List String), startswith bad "@@" = true →
        hunkHeaderMatch bad = none → scanLines (bad :: rest) = scanLines rest)
    ∧ (∀ diff : String,
        (∀ l ∈ splitlines diff, startswith l "@@" = true → hunkHeaderMatch l = none) →
        get_file_line_from_diff diff = 1) := by
  refine ⟨by decide, ?_, ?_⟩
  · intro bad rest hsw hm
    simp only [scanLines, hm, ite_self]
  · intro diff h
    apply scanLines_no_match
    intro l hl
    cases e : hunkHeaderMatch l with
    | none => rfl
    | some x => exact absurd (h l hl (startswith_of_match e)) (by simp [e])

/-- Claim C9, witness: the malformed header `@@ -3 +3 @@` is skipped by
the scan, and a patch whose only `@@` lines are malformed yields 1 even
though an added line follows them. -/
theorem malformed_header_skipped_witness :
    scanLines ["@@ -3 +3 @@", "+x"] = scanLines ["+x"]
    ∧ get_file_line_from_diff "@@ -3 +3 @@\n+y\n@@ bad @@" = 1 :=
  ⟨malformed_header_skipped.2.1 "@@ -3 +3 @@" ["+x"] (by decide) (by decide),
   malformed_header_skipped.2.2 "@@ -3 +3 @@\n+y\n@@ bad @@" (by decide)⟩

theorem mem_processFile_attempt {args : Args} {env : Env} {f : PRFile}
    {body path : String} {line : Nat} {side : String}
    (h : Event.commentAttempt body path line side ∈ processFile args env f) :
    truthy f.patch = true ∧ path = f.filename ∧
      file_review args env f ≠ "" ∧
      pyIn "no feedback" (lower (file_review args env f)) = false := by
  by_cases hp : truthy f.patch
  · refine ⟨hp, ?_⟩
    simp only [processFile, hp, if_true] at h
    by_cases hc : (!(file_review args env f == "") &&
        !(pyIn "no feedback" (lower (file_review args env f)))) = true
    · have hc' := hc
      simp only [Bool.and_eq_true, Bool.not_eq_true'] at hc'
      rw [if_pos hc] at h
      simp only [List.mem_cons] at h
      rcases h with h | h | h
      · exact absurd h (by simp)
      · simp only [Event.commentAttempt.injEq] at h
        exact ⟨h.2.1, by simpa using hc'.1, hc'.2⟩
      · exfalso
        rcases hcr : env.createResult ("AI Issue: " ++ file_review args env f)
            f.filename (get_file_line_from_diff (f.patch.getD "")) with _ | e <;>
          simp [hcr] at h
    · rw [if_neg hc] at h
      simp at h
  · simp [processFile, hp] at h

theorem mem_processFile_genReview {args : Args} {env : Env} {f : PRFile}
    {c : String} {m : Mode}
    (h : Event.genReview c m ∈ processFile args env f) :
    truthy f.patch = true ∧ c = chunk args env f ∧ m = args.mode := by
  by_cases hp : truthy f.patch
  · refine ⟨hp, ?_⟩
    simp only [processFile, hp, if_true, List.mem_cons] at h
    rcases h with h | h
    · simp only [Event.genReview.injEq] at h
      exact ⟨h.1, h.2⟩
    · exfalso
      by_cases hc : (!(file_review args env f == "") &&
          !(pyIn "no feedback" (lower (file_review args env f)))) = true
      · rw [if_pos hc] at h
        simp only [List.mem_cons] at h
        rcases h with h | h
        · exact absurd h (by simp)
        · rcases hcr : env.createResult ("AI Issue: " ++ file_review args env f)
              f.filename (get_file_line_from_diff (f.patch.getD "")) with _ | e <;>
            simp [hcr] at h
      · rw [if_neg hc] at h
        simp at h
  · simp [processFile, hp] at h

/-- Claim C3, counterexample: in comments mode with an open PR, the
per-file model call for the file with patch `"+p"` receives just that
chunk, which differs from the PR-level
`PR Title + PR Description + Diffs` string — so not every
`generate_review` call receives title, description and diffs. -/
theorem per_file_call_gets_chunk_only :
    Event.genReview "+p" Mode.comments ∈ runMain sampleArgs samplePrOpen sampleEnv
    ∧ "+p" ≠ content sampleArgs samplePrOpen sampleEnv :=
  ⟨by decide, by decide⟩

/-- Claim C3 as amended: the PR-level `generate_review` call in every
mode receives `PR Title + PR Description + Diffs` (the `content`
string), and every other `generate_review` call is a comments-mode
per-file call receiving exactly that file's chunk. -/
theorem model_call_content (args : Args) (pr : PullRequest) (env : Env) :
    Event.genReview (content args pr env) args.mode ∈ runMain args pr env
    ∧ (∀ (c : String) (m : Mode), Event.genReview c m ∈ runMain args pr env →
        c = content args pr env ∨
        ∃ f ∈ pr.files, truthy f.patch = true ∧ c = chunk args env f) := by
  constructor
  · exact List.mem_cons_self _ _
  · intro c m hmem
    simp only [runMain, List.mem_cons] at hmem
    rcases hmem with h | h
    · left
      simp only [Event.genReview.injEq] at h
      exact h.1
    · cases hmode : args.mode <;> rw [hmode] at h
      · simp at h
      · simp at h
      · simp only [List.mem_cons] at h
        rcases h with h | h
        · exact absurd h (by simp)
        · by_cases hs : pr.state = "open"
          · rw [if_pos hs] at h
            rw [List.mem_flatMap] at h
            obtain ⟨f, hf, hmemf⟩ := h
            obtain ⟨hp, hc, _⟩ := mem_processFile_genReview hmemf
            exact Or.inr ⟨f, hf, hp, hc⟩
          · rw [if_neg hs] at h
            exact absurd h (by simp)

/-- Claim C3 as amended, witness: the per-file call content `"+p"` seen
in the sample run is accounted for by the file whose chunk it is. -/
theorem model_call_content_witness :
    "+p" = content sampleArgs samplePrOpen sampleEnv ∨
      ∃ f ∈ samplePrOpen.files, truthy f.patch = true ∧
        "+p" = chunk sampleArgs sampleEnv f :=
  (model_call_content sampleArgs samplePrOpen sampleEnv).2 "+p" Mode.comments (by decide)

/-- Claim C5: in comments mode with an open PR, every attempted
review-comment creation belongs to a changed file with a truthy patch
whose per-file review is non-empty and free of the case-insensitive
substring `no feedback`; and for a file whose review does contain it (in
any letter case), the per-file loop body attempts no comment at all. -/
theorem no_feedback_no_comment (args : Args) (pr : PullRequest) (env : Env)
    (hm : args.mode = Mode.comments) (hs : pr.state = "open") :
    (∀ (body path : String) (line : Nat) (side : String),
      Event.commentAttempt body path line side ∈ runMain args pr env →
      ∃ f ∈ pr.files, truthy f.patch = true ∧ path = f.filename ∧
        file_review args env f ≠ "" ∧
        pyIn "no feedback" (lower (file_review args env f)) = false)
    ∧ (∀ f : PRFile,
        pyIn "no feedback" (lower (file_review args env f)) = true →
        ∀ (body path : String) (line : Nat) (side : String),
          Event.commentAttempt body path line side ∉ processFile args env f) := by
  constructor
  · intro body path line side hmem
    simp only [runMain, hm, hs, if_true, List.mem_cons] at hmem
    rcases hmem with h | h | h
    · exact absurd h (by simp)
    · exact absurd h (by simp)
    · rw [List.mem_flatMap] at h
      obtain ⟨f, hf, hmemf⟩ := h
      obtain ⟨hp, hpath, hfr, hnf⟩ := mem_processFile_attempt hmemf
      exact ⟨f, hf, hp, hpath, hfr, hnf⟩
  · intro f hnf body path line side hmem
    obtain ⟨_, _, _, hnf'⟩ := mem_processFile_attempt hmem
    rw [hnf] at hnf'
    exact absurd hnf' (by simp)

/-- Claim C5, witness: a model response `Looks fine: No FEEDBACK needed`
(mixed case) yields no comment attempt for the sample file. -/
theorem no_feedback_no_comment_witness :
    Event.commentAttempt "AI Issue: Looks fine: No FEEDBACK needed" "a.py" 1 "RIGHT" ∉
      processFile sampleArgs noFeedbackEnv sampleFile :=
  (no_feedback_no_comment sampleArgs samplePrOpen noFeedbackEnv rfl rfl).2
    sampleFile (by decide) "AI Issue: Looks fine: No FEEDBACK needed" "a.py" 1 "RIGHT"

/-- Claim C6: in comments mode with a PR whose state is not `open`, the
run consists of exactly the PR-level model call, the `Code Issues:`
print and the closed-PR notice — no comment creation and no per-file
model call occurs. -/
theorem closed_pr_no_comments (args : Args) (pr : PullRequest) (env : Env)
    (hm : args.mode = Mode.comments) (hs : pr.state ≠ "open") :
    runMain args pr env =
      [Event.genReview (content args pr env) Mode.comments,
       Event.printed ("Code Issues:\n" ++ review_text args pr env),
       Event.printed "Comments mode: PR is closed, no comments posted."] := by
  simp [runMain, hm, hs]

/-- Claim C6, witness: the closed sample PR produces exactly the
three-event trace ending in the closed-PR notice. -/
theorem closed_pr_no_comments_witness :
    runMain sampleArgs samplePrClosed sampleEnv =
      [Event.genReview (content sampleArgs samplePrClosed sampleEnv) Mode.comments,
       Event.printed ("Code Issues:\n" ++ review_text sampleArgs samplePrClosed sampleEnv),
       Event.printed "Comments mode: PR is closed, no comments posted."] :=
  closed_pr_no_comments sampleArgs samplePrClosed sampleEnv rfl (by decide)

/-- Claim C7: in comments mode with an open PR, when the comment
creation for one file raises an exception, the run prints the error line
containing that file's name and the exception message, and the trace
continues with the remaining files' events unchanged — the exception
does not abort the loop. -/
theorem comment_error_caught (args : Args) (pr : PullRequest) (env : Env)
    (fs1 fs2 : List PRFile) (f : PRFile) (err : String)
    (hm : args.mode = Mode.comments) (hs : pr.state = "open")
    (hfiles : pr.files = fs1 ++ f :: fs2)
    (hp : truthy f.patch = true)
    (hfr : file_review args env f ≠ "")
    (hnf : pyIn "no feedback" (lower (file_review args env f)) = false)
    (hcr : env.createResult ("AI Issue: " ++ file_review args env f) f.filename
      (get_file_line_from_diff (f.patch.getD "")) = some err) :
    runMain args pr env =
      Event.genReview (content args pr env) Mode.comments ::
      Event.printed ("Code Issues:\n" ++ review_text args pr env) ::
      (fs1.flatMap (processFile args env)
        ++ (Event.genReview (chunk args env f) Mode.comments ::
            Event.commentAttempt ("AI Issue: " ++ file_review args env f) f.filename
              (get_file_line_from_diff (f.patch.getD "")) "RIGHT" ::
            [Event.printed ("Error posting comment on " ++ f.filename ++ ": " ++ err)])
        ++ fs2.flatMap (processFile args env)) := by
  simp only [runMain, hm, hs, if_true, hfiles, List.flatMap_append, List.flatMap_cons]
  congr 2
  simp [processFile, hp, hfr, hnf, hcr, hm]

/-- Claim C7, witness: with comment creation raising `boom`, the sample
run posts nothing for `a.py`, prints the error line with the filename
and the message, and still processes `b.py`. -/
theorem comment_error_caught_witness :
    runMain sampleArgs samplePrOpen failEnv =
      Event.genReview (content sampleArgs samplePrOpen failEnv) Mode.comments ::
      Event.printed ("Code Issues:\n" ++ review_text sampleArgs samplePrOpen failEnv) ::
      (List.flatMap [] (processFile sampleArgs failEnv)
        ++ (Event.genReview (chunk sampleArgs failEnv sampleFile) Mode.comments ::
            Event.commentAttempt ("AI Issue: " ++ file_review sampleArgs failEnv sampleFile)
              sampleFile.filename
              (get_file_line_from_diff (sampleFile.patch.getD "")) "RIGHT" ::
            [Event.printed ("Error posting comment on " ++ sampleFile.filename ++ ": " ++ "boom")])
        ++ List.flatMap [sampleFile2] (processFile sampleArgs failEnv)) :=
  comment_error_caught sampleArgs samplePrOpen failEnv [] [sampleFile2] sampleFile "boom"
    rfl rfl rfl (by decide) (by decide) (by decide) rfl

/-- Claim C8: with the `GITHUB_TOKEN` environment variable absent, the
script aborts with the descriptive `ValueError` message and a non-zero
exit, and no trace of GitHub or model calls is produced. -/
theorem missing_token_aborts (args : Args) (pr : PullRequest) (env : Env) :
    runScript none args pr env =
      Except.error "GITHUB_TOKEN environment variable is required"
    ∧ ∀ events : List Event, runScript none args pr env ≠ Except.ok events := by
  refine ⟨rfl, ?_⟩
  intro evs h
  simp [runScript, truthy] at h

/-- Claim C8, witness: the abort on the sample configuration. -/
theorem missing_token_aborts_witness :
    runScript none sampleArgs samplePrOpen sampleEnv =
      Except.error "GITHUB_TOKEN environment variable is required" :=
  (missing_token_aborts sampleArgs samplePrOpen sampleEnv).1

/-- Claim C10: a missing or empty PR title becomes the literal
`No title provided`, a missing or empty body becomes
`No description provided`, and the base content string is always built
from these two well-formed pieces. -/
theorem placeholder_title_description :
    (∀ pr : PullRequest, pr.title = none ∨ pr.title = some "" →
      pr_title pr = "No title provided")
    ∧ (∀ pr : PullRequest, pr.body = none ∨ pr.body = some "" →
      pr_description pr = "No description provided")
    ∧ (∀ pr : PullRequest, base_content pr =
        "PR Title: " ++ pr_title pr ++ "\nPR Description:\n" ++ pr_description pr ++ "\n\n") := by
  refine ⟨?_, ?_, fun pr => rfl⟩
  · rintro pr (h | h) <;> simp [pr_title, orDefault, h]
  · rintro pr (h | h) <;> simp [pr_description, orDefault, h]

/-- Claim C10, witness: a PR with `None` title and empty body gets both
placeholders. -/
theorem placeholder_title_description_witness :
    pr_title { title := none, body := some "", state := "open", files := [] } =
      "No title provided"
    ∧ pr_description { title := none, body := some "", state := "open", files := [] } =
      "No description provided" :=
  ⟨placeholder_title_description.1 _ (Or.inl rfl),
   placeholder_title_description.2.1 _ (Or.inr rfl)⟩
